import Mathlib

/-!
Verification development for the capollama image-captioning command-line
tool.  The definitions below are a shallow embedding of the Go source
(main.go, the revision that includes the OpenAI-compatible transport):
pure string manipulation is translated function by function, the
filesystem and the captioning backends are modelled by explicit oracles,
and the per-image pipeline body of main becomes an explicit trace
function.  Strings are Lean strings; Go byte/rune subtleties outside the
ASCII range are irrelevant to the properties proved here except for
whitespace, which is modelled by the full Unicode White_Space set that
Go's unicode.IsSpace recognises.
-/

namespace Capollama

/-- Go unicode.IsSpace, the whitespace notion used by strings.TrimSpace:
space, tab, newline, vertical tab, form feed, carriage return, NEL, NBSP
and the Unicode space/line/paragraph separators. -/
def goIsSpace (c : Char) : Bool :=
  c.val == 32 || c.val == 9 || c.val == 10 || c.val == 11 || c.val == 12 ||
  c.val == 13 || c.val == 0x85 || c.val == 0xA0 || c.val == 0x1680 ||
  (0x2000 ≤ c.val && c.val ≤ 0x200A) || c.val == 0x2028 || c.val == 0x2029 ||
  c.val == 0x202F || c.val == 0x205F || c.val == 0x3000

/-- strings.TrimSpace: remove leading and trailing whitespace. -/
def trimSpace (s : String) : String :=
  ⟨((s.data.dropWhile goIsSpace).reverse.dropWhile goIsSpace).reverse⟩

/-- strings.TrimSuffix: drop the given suffix when present. -/
def trimSuffix (s suffix : String) : String :=
  if suffix.data.isSuffixOf s.data then
    ⟨s.data.take (s.data.length - suffix.data.length)⟩
  else s

/-- strings.TrimPrefix; drops the given leading string when present. -/
def trimPrefixStr (s pre : String) : String :=
  if pre.data.isPrefixOf s.data then ⟨s.data.drop pre.data.length⟩ else s

/-- strings.HasPrefix(s, dot): whether the string starts with a dot, the
hidden-directory test of the walker. -/
def startsWithDot (s : String) : Bool :=
  s.data.head? == some '.'

/-- strings.ToLower restricted to ASCII letters.  Go lowercases by Unicode
tables; no character outside ASCII lowercases onto the ASCII letters the
extension allow-list consists of, so this restriction is extensionally
faithful for the extension comparison below. -/
def toLowerChar (c : Char) : Char :=
  if 65 ≤ c.val && c.val ≤ 90 then Char.ofNat (c.toNat + 32) else c

/-- strings.ToLower on a whole string (ASCII model, see toLowerChar). -/
def toLowerStr (s : String) : String :=
  ⟨s.data.map toLowerChar⟩

/-- Scanner for filepath.Ext: walk the path from its end; a slash before
any dot means no extension, the first dot found ends the scan.  The first
argument is the reversed path, the second accumulates the suffix seen so
far in original order. -/
def extScan : List Char → List Char → List Char
  | [], _ => []
  | c :: rest, acc =>
    if c = '/' then []
    else if c = '.' then c :: acc
    else extScan rest (c :: acc)

/-- filepath.Ext: the suffix beginning at the final dot in the final
slash-separated element of the path; empty if there is no dot. -/
def filepathExt (path : String) : String :=
  ⟨extScan path.data.reverse []⟩

/-- filepath.Base: strip trailing slashes and take the last element;
empty path gives a dot, an all-slash path gives a slash. -/
def filepathBase (path : String) : String :=
  match path.data with
  | [] => "."
  | _ =>
    let p := (path.data.reverse.dropWhile (fun c => c = '/')).reverse
    if p.isEmpty then "/"
    else ⟨(p.reverse.takeWhile (fun c => c ≠ '/')).reverse⟩

/-- Split a character list at slashes (helper for path cleaning). -/
def splitOnSlash : List Char → List (List Char)
  | [] => [[]]
  | c :: rest =>
    if c = '/' then [] :: splitOnSlash rest
    else
      match splitOnSlash rest with
      | [] => [[c]]
      | h :: t => (c :: h) :: t

/-- Join components with slashes (helper for path cleaning). -/
def joinSlash : List (List Char) → List Char
  | [] => []
  | [c] => c
  | c :: rest => c ++ '/' :: joinSlash rest

/-- Component processing of filepath.Clean: drop empty and dot
components; a dot-dot component pops a previous real component, is
dropped at the root of a rooted path, and is kept in an unrooted path
when there is nothing left to pop.  The first list is the stack of kept
components in reverse order. -/
def cleanComps (rooted : Bool) : List (List Char) → List (List Char) → List (List Char)
  | acc, [] => acc.reverse
  | acc, c :: rest =>
    if c = [] ∨ c = ['.'] then cleanComps rooted acc rest
    else if c = ['.', '.'] then
      match acc with
      | [] =>
        if rooted then cleanComps rooted [] rest
        else cleanComps rooted [['.', '.']] rest
      | top :: accRest =>
        if top = ['.', '.'] then cleanComps rooted (c :: top :: accRest) rest
        else cleanComps rooted accRest rest
    else cleanComps rooted (c :: acc) rest

/-- filepath.Clean (Unix paths, no volume names). -/
def cleanPath (s : String) : String :=
  match s.data with
  | [] => "."
  | c :: rest =>
    let rooted := c = '/'
    let joined := joinSlash (cleanComps rooted [] (splitOnSlash (c :: rest)))
    if rooted then ⟨'/' :: joined⟩
    else if joined.isEmpty then "."
    else ⟨joined⟩

/-- filepath.Join of two elements: empty elements are dropped, the rest
joined with a slash and cleaned; all-empty input stays empty. -/
def filepathJoin (a b : String) : String :=
  if a.data.isEmpty then
    if b.data.isEmpty then "" else cleanPath b
  else if b.data.isEmpty then cleanPath a
  else cleanPath (a ++ ("/") ++ b)

/-- filepath.Dir: everything up to and including the final slash,
cleaned; a path with no slash gives a dot. -/
def filepathDir (path : String) : String :=
  cleanPath ⟨(path.data.reverse.dropWhile (fun c => c ≠ '/')).reverse⟩

/-- isImageFile from main.go: lowercase the extension and compare with
the fixed allow-list. -/
def isImageFile (path : String) : Bool :=
  let ext := toLowerStr (filepathExt path)
  ext == (".jpg") || ext == (".jpeg") || ext == (".png")

example : isImageFile ("photos/cat.JPG") = true := by decide
example : isImageFile ("photos/cat.jpeg") = true := by decide
example : isImageFile ("photos/cat.txt") = false := by decide
example : isImageFile ("photos/cat") = false := by decide
example : filepathExt ("a/b.jpg") = (".jpg") := by decide
example : filepathExt ("a.b/c") = ("") := by decide
example : filepathDir ("a/b.jpg") = ("a") := by decide
example : filepathDir ("b.jpg") = (".") := by decide
example : filepathDir ("/b.jpg") = ("/") := by decide
example : filepathJoin ("r/s") ("x.png") = ("r/s/x.png") := by decide
example : filepathBase ("a/.hidden") = (".hidden") := by decide
example : trimSpace ("  a  b ") = ("a  b") := by decide
example : cleanPath ("a/./b/../c/") = ("a/c") := by decide

/-- A directory entry as the walk observes it: a name plus whether the
lstat of this entry fails when its parent directory is enumerated
(filepath.Walk hands such an error to the walk function, which in
main.go returns nil, skipping the entry). -/
inductive FsEntry where
  | file (name : String) (statErr : Bool)
  | dir (name : String) (statErr : Bool) (children : List FsEntry)

mutual
/-- One step of the filepath.Walk traversal as driven by the walk
function in ProcessImages (main.go): an entry whose lstat failed is
skipped; a directory whose base name starts with a dot is answered with
SkipDir, so nothing beneath it is visited; a file is handed to the
process function exactly when isImageFile accepts it.  The result is the
list of image paths passed to the process function, in traversal
order. -/
def walkEntry (parent : String) : FsEntry → List String
  | .file name statErr =>
    let p := filepathJoin parent name
    if statErr then []
    else if isImageFile p then [p] else []
  | .dir name statErr children =>
    let p := filepathJoin parent name
    if statErr then []
    else if startsWithDot (filepathBase p) then []
    else walkEntries p children

/-- The traversal of a list of sibling entries, in order. -/
def walkEntries (parent : String) : List FsEntry → List String
  | [] => []
  | e :: es => walkEntry parent e ++ walkEntries parent es
end

/-- filepath.Walk applied to the root directory itself: the walk
function is also called on the root, so a root whose base name starts
with a dot is skipped whole. -/
def walkRoot (path : String) (children : List FsEntry) : List String :=
  if startsWithDot (filepathBase path) then [] else walkEntries path children

/-- What os.Stat finds at the initial path: a stat failure, a
non-directory file, or a directory with the given entries. -/
inductive RootFs where
  | statErr
  | file
  | dir (children : List FsEntry)

/-- ProcessImages from main.go, with the process function modelled by
collecting the (imagePath, rootDir) pairs it would receive: a failing
stat of the initial path is returned as an error; a single file is
yielded exactly when isImageFile accepts it, with the parent directory
as root; a directory is walked with itself as the root of every yielded
pair.  The walk function only ever returns nil or SkipDir, so the walk
itself always succeeds. -/
def ProcessImages (path : String) (fs : RootFs) : Except Unit (List (String × String)) :=
  match fs with
  | .statErr => .error ()
  | .file =>
    if isImageFile path then .ok [(path, filepathDir path)] else .ok []
  | .dir children =>
    .ok ((walkRoot path children).map (fun p => (p, path)))

/-- Whether the stat of this entry itself fails when enumerated. -/
def entryStatErr : FsEntry → Bool
  | .file _ se => se
  | .dir _ se _ => se

mutual
/-- No stat error anywhere in this subtree. -/
def entryStatOk : FsEntry → Bool
  | .file _ se => !se
  | .dir _ se children => !se && entriesStatOk children

/-- No stat error anywhere below any of these entries. -/
def entriesStatOk : List FsEntry → Bool
  | [] => true
  | e :: es => entryStatOk e && entriesStatOk es
end

mutual
/-- Specification-side description of the tree used to state the walker
claim: every file of the tree, paired with the flag saying whether it
lies inside a (sub)directory whose base name begins with a dot.  The
Boolean argument carries whether an enclosing directory was already
hidden. -/
def specTreeFile (parent : String) (hidden : Bool) : FsEntry → List (String × Bool)
  | .file name _ => [(filepathJoin parent name, hidden)]
  | .dir name _ children =>
    let p := filepathJoin parent name
    specTreeFiles p (hidden || startsWithDot (filepathBase p)) children

/-- specTreeFile over a list of sibling entries. -/
def specTreeFiles (parent : String) (hidden : Bool) : List FsEntry → List (String × Bool)
  | [] => []
  | e :: es => specTreeFile parent hidden e ++ specTreeFiles parent hidden es
end

example :
    walkRoot ("r")
      [FsEntry.file ("a.jpg") false,
       FsEntry.file ("b.txt") false,
       FsEntry.dir (".git") false [FsEntry.file ("c.png") false],
       FsEntry.dir ("sub") false [FsEntry.file ("d.PNG") false]]
    = [("r/a.jpg"), ("r/sub/d.PNG")] := by decide

example :
    ProcessImages ("pics/x.jpeg") RootFs.file
    = Except.ok [(("pics/x.jpeg"), ("pics"))] := by rfl

example : ProcessImages ("pics/x.txt") RootFs.file = Except.ok [] := by rfl

example : ProcessImages ("pics") RootFs.statErr = Except.error () := by rfl

/-- The command-line and environment configuration fields that the
per-image pipeline body reads.  openAPI is the alternate-backend
endpoint flag (the OpenAPI field of cmdArgs); the backend is the OpenAI
transport exactly when it is non-empty. -/
structure Config where
  openAPI : String
  force : Bool
  dryRun : Bool
  startCaption : String
  endCaption : String
deriving DecidableEq

/-- The once-at-startup transport decision in main: useOpenAI is true
exactly when the OpenAPI flag is non-empty. -/
def useOpenAI (cfg : Config) : Bool :=
  !(cfg.openAPI == (""))

/-- The two backend transports. -/
inductive Transport where
  | ollama
  | openai
deriving DecidableEq

/-- How the external world behaves for one captioning attempt: the image
read fails, the backend call fails, the OpenAI response carries no
choices, or the backend returns the given raw text (for the streaming
Ollama client, the concatenation of all streamed message contents; an
empty stream is the same as returning the empty string). -/
inductive ChatOutcome where
  | readErr
  | transportErr
  | emptyChoices
  | ok (raw : String)
deriving DecidableEq

/-- Result of one transport helper call: either the helper kills the
process itself (log.Fatal inside ChatWithImage), or it returns a
(text, error) pair to the caller. -/
inductive ChatCall where
  | fatalInside
  | ret (r : Except Unit String)

/-- ChatWithImage (the Ollama transport) from main.go: a failing image
read is returned as an error; a failing Chat call is log.Fatal inside
the helper; otherwise the streamed contents are returned untrimmed.  The
no-choices case cannot arise for the streaming client: an empty stream
simply accumulates the empty string. -/
def ChatWithImage : ChatOutcome → ChatCall
  | .readErr => .ret (.error ())
  | .transportErr => .fatalInside
  | .emptyChoices => .ret (.ok (""))
  | .ok raw => .ret (.ok raw)

/-- ChatWithImageOpenAI from main.go: a failing image read, a failing
API call and an empty choice list are all returned as errors; a
successful response is returned with strings.TrimSpace applied to the
message content. -/
def ChatWithImageOpenAI : ChatOutcome → ChatCall
  | .readErr => .ret (.error ())
  | .transportErr => .ret (.error ())
  | .emptyChoices => .ret (.error ())
  | .ok raw => .ret (.ok (trimSpace raw))

/-- The sibling caption path computed in the pipeline body:
strings.TrimSuffix(path, filepath.Ext(path)) + txt extension. -/
def captionFileOf (path : String) : String :=
  trimSuffix path (filepathExt path) ++ (".txt")

/-- The caption text the pipeline produces from the raw backend text:
the transport helper output (trimmed by the OpenAI helper, untrimmed for
Ollama) spliced between the start and end fragments with single spaces
and trimmed as a whole. -/
def finalCaption (cfg : Config) (raw : String) : String :=
  let text := if useOpenAI cfg then trimSpace raw else raw
  trimSpace (cfg.startCaption ++ (" ") ++ text ++ (" ") ++ cfg.endCaption)

/-- Observable behaviour of the pipeline body on one image: whether a
backend call was made and over which transport, the stdout line printed
(without its trailing newline), the caption file written with its
contents, and whether the body ended in log.Fatal. -/
structure StepTrace where
  apiCalled : Bool
  transport : Option Transport
  printedLine : Option String
  wrote : Option (String × String)
  fatal : Bool
deriving DecidableEq

/-- The per-image closure passed to ProcessImages in main: compute the
caption file path; without the force flag, an existing caption file
skips the image before any backend call; otherwise call the transport
selected at startup; any returned error is log.Fatal; on success print
the relative path and caption, then, unless dry-run, write the caption
file, a write failure being log.Fatal.  fileExists models os.Stat of the
caption file succeeding, writeOk models os.WriteFile succeeding. -/
def processOne (cfg : Config) (fileExists : String → Bool) (writeOk : String → Bool)
    (outcome : ChatOutcome) (path root : String) : StepTrace :=
  if !cfg.force && fileExists (captionFileOf path) then
    ⟨false, none, none, none, false⟩
  else
    match (if useOpenAI cfg then ChatWithImageOpenAI outcome else ChatWithImage outcome) with
    | .fatalInside =>
      ⟨true, some (if useOpenAI cfg then .openai else .ollama), none, none, true⟩
    | .ret (.error _) =>
      ⟨true, some (if useOpenAI cfg then .openai else .ollama), none, none, true⟩
    | .ret (.ok text) =>
      let captionText := trimSpace (cfg.startCaption ++ (" ") ++ text ++ (" ") ++ cfg.endCaption)
      let line := trimPrefixStr path root ++ (": ") ++ captionText
      if !cfg.dryRun then
        if writeOk (captionFileOf path) then
          ⟨true, some (if useOpenAI cfg then .openai else .ollama), some line,
            some (captionFileOf path, captionText), false⟩
        else ⟨true, some (if useOpenAI cfg then .openai else .ollama), some line, none, true⟩
      else ⟨true, some (if useOpenAI cfg then .openai else .ollama), some line, none, false⟩

/-- Accumulated observable behaviour of a whole run: stdout caption
lines, caption files written with their contents, the transport of every
backend call made, and whether the run died in log.Fatal. -/
structure RunOutcome where
  lines : List String
  writes : List (String × String)
  transports : List Transport
  fatal : Bool
deriving DecidableEq

/-- The run over the discovered images in order: each image is processed
by the pipeline body; log.Fatal exits the process at once, so a fatal
step keeps its own prints and writes and nothing of any later image. -/
def runPipeline (cfg : Config) (fileExists : String → Bool) (writeOk : String → Bool)
    (oracle : String → ChatOutcome) : List (String × String) → RunOutcome
  | [] => ⟨[], [], [], false⟩
  | (p, r) :: rest =>
    let t := processOne cfg fileExists writeOk (oracle p) p r
    if t.fatal then
      ⟨t.printedLine.toList, t.wrote.toList, t.transport.toList, true⟩
    else
      let out := runPipeline cfg fileExists writeOk oracle rest
      ⟨t.printedLine.toList ++ out.lines, t.wrote.toList ++ out.writes,
        t.transport.toList ++ out.transports, out.fatal⟩

/-- The process exit code of main: a failing stat of the initial path is
printed and exited with code 1; a log.Fatal during the run also exits
with code 1; otherwise the process ends normally. -/
def mainExit (cfg : Config) (path : String) (fs : RootFs) (fileExists : String → Bool)
    (writeOk : String → Bool) (oracle : String → ChatOutcome) : Nat :=
  match ProcessImages path fs with
  | .error _ => 1
  | .ok imgs => if (runPipeline cfg fileExists writeOk oracle imgs).fatal then 1 else 0

example :
    processOne ⟨(""), true, false, ("a"), ("b")⟩ (fun _ => false) (fun _ => true)
      (ChatOutcome.ok ("A cat. ")) ("d/i.jpg") ("d")
    = ⟨true, some Transport.ollama, some ("/i.jpg: a A cat.  b"),
        some (("d/i.txt"), ("a A cat.  b")), false⟩ := by decide

example :
    processOne ⟨("http://x"), true, false, ("a"), ("b")⟩ (fun _ => false) (fun _ => true)
      (ChatOutcome.ok ("A cat. ")) ("d/i.jpg") ("d")
    = ⟨true, some Transport.openai, some ("/i.jpg: a A cat. b"),
        some (("d/i.txt"), ("a A cat. b")), false⟩ := by decide

/-- Case-insensitive equality of two strings, via the lowercase map. -/
def eqFold (a b : String) : Bool :=
  toLowerStr a == toLowerStr b

/-- Specification-side reading of the extension filter: the filename
extension compares case-insensitively equal to jpg, jpeg or png. -/
def specExtAllowed (path : String) : Bool :=
  eqFold (filepathExt path) (".jpg") || eqFold (filepathExt path) (".jpeg") ||
  eqFold (filepathExt path) (".png")

/-- C8: the extension filter accepts a path exactly when its filename
extension, compared case-insensitively, is jpg, jpeg or png, and a name
without any extension is never accepted. -/
theorem extension_filter_allowlist (path : String) :
    isImageFile path = specExtAllowed path
    ∧ (filepathExt path = ("") → isImageFile path = false) := by
  constructor
  · have h1 : toLowerStr (".jpg") = (".jpg") := by decide
    have h2 : toLowerStr (".jpeg") = (".jpeg") := by decide
    have h3 : toLowerStr (".png") = (".png") := by decide
    simp only [isImageFile, specExtAllowed, eqFold, h1, h2, h3]
  · intro h
    simp only [isImageFile, h]
    decide

/-- C8 witness: a concrete extensionless path is rejected. -/
theorem extension_filter_allowlist_witness : isImageFile ("photos/readme") = false :=
  (extension_filter_allowlist ("photos/readme")).2 (by decide)

/-- C7: a single non-directory path is yielded exactly when its
extension matches, alone and with the parent directory as the root, and
a non-matching single file yields nothing while the walk still
succeeds. -/
theorem single_file_walk (path : String) :
    (isImageFile path = true →
      ProcessImages path RootFs.file = Except.ok [(path, filepathDir path)])
    ∧ (isImageFile path = false → ProcessImages path RootFs.file = Except.ok []) := by
  constructor <;> intro h <;> simp [ProcessImages, h]

/-- C7 witness: a matching single file and a non-matching one. -/
theorem single_file_walk_witness :
    ProcessImages ("d/cat.png") RootFs.file = Except.ok [(("d/cat.png"), ("d"))]
    ∧ ProcessImages ("d/notes.txt") RootFs.file = Except.ok [] := by
  constructor
  · exact (single_file_walk ("d/cat.png")).1 (by decide)
  · exact (single_file_walk ("d/notes.txt")).2 (by decide)

/-- An entry whose own lstat fails contributes nothing to the walk. -/
theorem walkEntry_statErr (parent : String) (e : FsEntry) (h : entryStatErr e = true) :
    walkEntry parent e = [] := by
  cases e with
  | file n se =>
    simp only [entryStatErr] at h
    simp [walkEntry, h]
  | dir n se cs =>
    simp only [entryStatErr] at h
    simp [walkEntry, h]

/-- C9: a failing stat of the initial path is returned to the caller and
surfaces as exit code 1, while a failing stat of an individual entry
during the directory walk is swallowed: that entry is skipped and the
walk of the remaining entries continues unchanged. -/
theorem walker_error_semantics (cfg : Config) (path parent : String) (e : FsEntry)
    (pre post : List FsEntry) (fileExists writeOk : String → Bool)
    (oracle : String → ChatOutcome) (h : entryStatErr e = true) :
    ProcessImages path RootFs.statErr = Except.error ()
    ∧ mainExit cfg path RootFs.statErr fileExists writeOk oracle = 1
    ∧ walkEntries parent (pre ++ e :: post) = walkEntries parent (pre ++ post) := by
  refine ⟨rfl, rfl, ?_⟩
  induction pre with
  | nil => simp [walkEntries, walkEntry_statErr parent e h]
  | cons a t ih => simp only [List.cons_append, walkEntries, List.append_eq, ih]

/-- C9 witness: a concrete tree where the middle entry's stat fails. -/
theorem walker_error_semantics_witness :
    ProcessImages ("root") RootFs.statErr = Except.error ()
    ∧ mainExit ⟨(""), false, false, (""), ("")⟩ ("root") RootFs.statErr (fun _ => false)
        (fun _ => true) (fun _ => ChatOutcome.readErr) = 1
    ∧ walkEntries ("root")
        ([FsEntry.file ("a.jpg") false] ++ FsEntry.file ("bad.jpg") true
          :: [FsEntry.file ("c.png") false])
      = walkEntries ("root") ([FsEntry.file ("a.jpg") false] ++ [FsEntry.file ("c.png") false]) :=
  walker_error_semantics ⟨(""), false, false, (""), ("")⟩ ("root") ("root")
    (FsEntry.file ("bad.jpg") true) [FsEntry.file ("a.jpg") false] [FsEntry.file ("c.png") false]
    (fun _ => false) (fun _ => true) (fun _ => ChatOutcome.readErr) (by decide)

/-- Elements of a list filtered by a predicate false on all of them. -/
theorem filter_hidden_nil (l : List (String × Bool)) (h : ∀ x ∈ l, x.2 = true) :
    l.filter (fun x => !x.2 && isImageFile x.1) = [] := by
  induction l with
  | nil => rfl
  | cons a t ih =>
    have ha := h a (List.mem_cons_self a t)
    rw [List.filter_cons]
    simp only [ha, Bool.not_true, Bool.false_and, if_false]
    exact ih (fun x hx => h x (List.mem_cons_of_mem a hx))

/-- Below a hidden directory, every file of the specification tree
carries the hidden flag. -/
theorem specTreeFiles_hidden : ∀ (n : Nat) (es : List FsEntry) (parent : String),
    sizeOf es ≤ n → ∀ x ∈ specTreeFiles parent true es, x.2 = true := by
  intro n
  induction n with
  | zero =>
    intro es parent hle
    cases es with
    | nil => intro x hx; simp [specTreeFiles] at hx
    | cons e rest => rw [List.cons.sizeOf_spec] at hle; omega
  | succ n ih =>
    intro es parent hle x hx
    cases es with
    | nil => simp [specTreeFiles] at hx
    | cons e rest =>
      rw [List.cons.sizeOf_spec] at hle
      rw [specTreeFiles, List.mem_append] at hx
      rcases hx with hx | hx
      · cases e with
        | file name se => simp [specTreeFile] at hx; rw [hx]
        | dir name se cs =>
          rw [specTreeFile] at hx
          simp only [Bool.true_or] at hx
          have hsz : sizeOf cs ≤ n := by
            rw [FsEntry.dir.sizeOf_spec] at hle; omega
          exact ih cs _ hsz x hx
      · have hsz : sizeOf rest ≤ n := by omega
        exact ih rest parent hsz x hx

/-- The walked image paths are exactly the specification tree's files
that are outside hidden directories and match the extension filter, in
order, provided no stat fails anywhere below. -/
theorem walkEntries_filter : ∀ (n : Nat) (es : List FsEntry) (parent : String),
    sizeOf es ≤ n → entriesStatOk es = true →
    walkEntries parent es
      = ((specTreeFiles parent false es).filter
          (fun x => !x.2 && isImageFile x.1)).map Prod.fst := by
  intro n
  induction n with
  | zero =>
    intro es parent hle _
    cases es with
    | nil => rfl
    | cons e rest => rw [List.cons.sizeOf_spec] at hle; omega
  | succ n ih =>
    intro es parent hle hok
    cases es with
    | nil => rfl
    | cons e rest =>
      rw [List.cons.sizeOf_spec] at hle
      rw [entriesStatOk, Bool.and_eq_true] at hok
      have hrest : sizeOf rest ≤ n := by omega
      rw [walkEntries, specTreeFiles, List.filter_append, List.map_append,
        ih rest parent hrest hok.2]
      have hhead : walkEntry parent e
          = ((specTreeFile parent false e).filter
              (fun x => !x.2 && isImageFile x.1)).map Prod.fst := by
        cases e with
        | file name se =>
          have hse : se = false := by
            have := hok.1; rw [entryStatOk, Bool.not_eq_true'] at this; exact this
          rw [walkEntry, specTreeFile, hse]
          by_cases himg : isImageFile (filepathJoin parent name) = true
          · simp [himg]
          · rw [Bool.not_eq_true] at himg; simp [himg]
        | dir name se cs =>
          have hse : se = false := by
            have := hok.1; rw [entryStatOk, Bool.and_eq_true, Bool.not_eq_true'] at this
            exact this.1
          have hcs : entriesStatOk cs = true := by
            have := hok.1; rw [entryStatOk, Bool.and_eq_true] at this; exact this.2
          have hsz : sizeOf cs ≤ n := by rw [FsEntry.dir.sizeOf_spec] at hle; omega
          rw [walkEntry, specTreeFile, hse]
          by_cases hhid : startsWithDot (filepathBase (filepathJoin parent name)) = true
          · simp only [hhid, if_true, if_false, Bool.false_or]
            rw [filter_hidden_nil _ (specTreeFiles_hidden n cs _ hsz)]
            rfl
          · rw [Bool.not_eq_true] at hhid
            simp only [hhid, if_false, Bool.false_or]
            exact ih cs _ hsz hcs
      rw [hhead]

/-- C6: over a directory tree free of stat errors and rooted at a
non-hidden directory, the walker yields exactly the files matching the
image-extension filter that are not inside any dot-named subdirectory,
each paired with the top directory as root, and none of the other files
(non-matching ones, or any file below a hidden subdirectory). -/
theorem directory_walk_images (path : String) (children : List FsEntry)
    (hok : entriesStatOk children = true)
    (hroot : startsWithDot (filepathBase path) = false) :
    ProcessImages path (RootFs.dir children)
      = Except.ok (((((specTreeFiles path false children).filter
          (fun x => !x.2 && isImageFile x.1)).map Prod.fst).map (fun p => (p, path)))) := by
  rw [ProcessImages, walkRoot]
  simp only [hroot, if_false]
  rw [walkEntries_filter (sizeOf children) children path (le_refl _) hok]
  simp

/-- C6 witness: a concrete tree with two matching files, a non-matching
file and a hidden subdirectory holding a matching file. -/
theorem directory_walk_images_witness :
    ProcessImages ("r")
      (RootFs.dir [FsEntry.file ("a.jpg") false, FsEntry.file ("b.txt") false,
        FsEntry.dir (".h") false [FsEntry.file ("c.png") false],
        FsEntry.dir ("s") false [FsEntry.file ("d.png") false]])
    = Except.ok [(("r/a.jpg"), ("r")), (("r/s/d.png"), ("r"))] :=
  (directory_walk_images ("r")
    [FsEntry.file ("a.jpg") false, FsEntry.file ("b.txt") false,
      FsEntry.dir (".h") false [FsEntry.file ("c.png") false],
      FsEntry.dir ("s") false [FsEntry.file ("d.png") false]]
    (by decide) (by decide)).trans (by rfl)

/-- C2: with the force flag unset, an image whose sibling caption file
exists is skipped entirely by the pipeline body: no backend call, no
stdout line, no write, no fatal exit — and the whole run behaves as if
the image were absent. -/
theorem existing_caption_skips (cfg : Config) (fileExists writeOk : String → Bool)
    (oracle : String → ChatOutcome) (p r : String) (rest : List (String × String))
    (hforce : cfg.force = false) (hex : fileExists (captionFileOf p) = true) :
    processOne cfg fileExists writeOk (oracle p) p r = ⟨false, none, none, none, false⟩
    ∧ runPipeline cfg fileExists writeOk oracle ((p, r) :: rest)
      = runPipeline cfg fileExists writeOk oracle rest := by
  have h1 : processOne cfg fileExists writeOk (oracle p) p r
      = ⟨false, none, none, none, false⟩ := by
    rw [processOne, hforce, hex]
    rfl
  refine ⟨h1, ?_⟩
  rw [runPipeline, h1]
  simp

/-- C2 witness: one concrete image with an existing caption file
contributes nothing to a run. -/
theorem existing_caption_skips_witness :
    processOne ⟨(""), false, false, ("s"), ("e")⟩ (fun _ => true) (fun _ => true)
      ((fun _ => ChatOutcome.ok ("hi")) ("d/i.jpg")) ("d/i.jpg") ("d")
      = ⟨false, none, none, none, false⟩
    ∧ runPipeline ⟨(""), false, false, ("s"), ("e")⟩ (fun _ => true) (fun _ => true)
        (fun _ => ChatOutcome.ok ("hi")) [(("d/i.jpg"), ("d"))]
      = runPipeline ⟨(""), false, false, ("s"), ("e")⟩ (fun _ => true) (fun _ => true)
        (fun _ => ChatOutcome.ok ("hi")) [] :=
  existing_caption_skips ⟨(""), false, false, ("s"), ("e")⟩ (fun _ => true) (fun _ => true)
    (fun _ => ChatOutcome.ok ("hi")) ("d/i.jpg") ("d") [] (by rfl) (by rfl)

/-- The pipeline body records no transport, or the one transport that
the startup configuration selects. -/
theorem processOne_transport (cfg : Config) (fe wok : String → Bool) (o : ChatOutcome)
    (p r : String) :
    (processOne cfg fe wok o p r).transport = none
    ∨ (processOne cfg fe wok o p r).transport
      = some (if useOpenAI cfg then Transport.openai else Transport.ollama) := by
  rw [processOne]
  split
  · exact Or.inl rfl
  · split
    · exact Or.inr rfl
    · exact Or.inr rfl
    · split
      · split
        · exact Or.inr rfl
        · exact Or.inr rfl
      · exact Or.inr rfl

/-- The startup transport selection written with the endpoint test the
claim states. -/
theorem chosen_transport_eq (cfg : Config) :
    (if useOpenAI cfg then Transport.openai else Transport.ollama)
      = (if cfg.openAPI = ("") then Transport.ollama else Transport.openai) := by
  by_cases h : cfg.openAPI = ("")
  · simp [useOpenAI, h]
  · simp [useOpenAI, h]

/-- C3: every backend call of a run goes through the transport
determined once by the endpoint configuration: the OpenAI-compatible one
when the alternate-backend endpoint is non-empty, the Ollama one when it
is empty; in particular the two transports are never mixed within one
run. -/
theorem transport_uniform (cfg : Config) (fe wok : String → Bool)
    (oracle : String → ChatOutcome) (imgs : List (String × String)) (t : Transport)
    (h : t ∈ (runPipeline cfg fe wok oracle imgs).transports) :
    t = (if cfg.openAPI = ("") then Transport.ollama else Transport.openai) := by
  induction imgs with
  | nil => simp [runPipeline] at h
  | cons pr rest ih =>
    obtain ⟨p, r⟩ := pr
    have hmem : t ∈ (processOne cfg fe wok (oracle p) p r).transport.toList
        ∨ t ∈ (runPipeline cfg fe wok oracle rest).transports := by
      rw [runPipeline] at h
      by_cases hf : (processOne cfg fe wok (oracle p) p r).fatal = true
      · simp only [hf, if_true] at h
        exact Or.inl h
      · rw [Bool.not_eq_true] at hf
        simp only [hf] at h
        simp only [Bool.false_eq_true, if_false, List.mem_append] at h
        exact h
    rcases hmem with hm | hm
    · rcases processOne_transport cfg fe wok (oracle p) p r with hn | hs
      · rw [hn] at hm; simp at hm
      · rw [hs] at hm
        simp only [Option.toList_some, List.mem_singleton] at hm
        rw [hm]
        exact chosen_transport_eq cfg
    · exact ih hm

/-- C3 witness: a run against a non-empty endpoint only ever used the
OpenAI transport. -/
theorem transport_uniform_witness :
    Transport.openai
      = (if (("http://lm.local/v1") : String) = ("") then Transport.ollama
          else Transport.openai) :=
  transport_uniform ⟨("http://lm.local/v1"), true, true, (""), ("")⟩ (fun _ => false)
    (fun _ => true) (fun _ => ChatOutcome.ok ("hi")) [(("i.jpg"), ("."))] Transport.openai
    (by decide)

/-- C4: a fatal step ends the run with nothing contributed by any later
image, and each failure kind is indeed fatal for a non-skipped image: a
failing image read, a failing backend call, and a failing caption write
outside dry-run. -/
theorem failure_aborts_run (cfg : Config) (fe wok : String → Bool)
    (oracle : String → ChatOutcome) (p r : String) (rest : List (String × String)) :
    ((processOne cfg fe wok (oracle p) p r).fatal = true →
      runPipeline cfg fe wok oracle ((p, r) :: rest)
        = runPipeline cfg fe wok oracle [(p, r)])
    ∧ ((!cfg.force && fe (captionFileOf p)) = false → oracle p = ChatOutcome.readErr →
        (processOne cfg fe wok (oracle p) p r).fatal = true)
    ∧ ((!cfg.force && fe (captionFileOf p)) = false → oracle p = ChatOutcome.transportErr →
        (processOne cfg fe wok (oracle p) p r).fatal = true)
    ∧ (∀ raw, (!cfg.force && fe (captionFileOf p)) = false →
        oracle p = ChatOutcome.ok raw → cfg.dryRun = false →
        wok (captionFileOf p) = false →
        (processOne cfg fe wok (oracle p) p r).fatal = true) := by
  refine ⟨?_, ?_, ?_, ?_⟩
  · intro hfatal
    rw [runPipeline, runPipeline]
    simp only [hfatal, if_true]
  · intro hskip hout
    rw [hout, processOne, hskip]
    by_cases hu : useOpenAI cfg = true
    · simp [hu, ChatWithImageOpenAI]
    · rw [Bool.not_eq_true] at hu
      simp [hu, ChatWithImage]
  · intro hskip hout
    rw [hout, processOne, hskip]
    by_cases hu : useOpenAI cfg = true
    · simp [hu, ChatWithImageOpenAI]
    · rw [Bool.not_eq_true] at hu
      simp [hu, ChatWithImage]
  · intro raw hskip hout hdry hwok
    rw [hout, processOne, hskip]
    by_cases hu : useOpenAI cfg = true
    · simp [hu, ChatWithImageOpenAI, hdry, hwok]
    · rw [Bool.not_eq_true] at hu
      simp [hu, ChatWithImage, hdry, hwok]

/-- C4 witness: the three failure kinds at concrete inputs, and a run in
which the failing first image cuts off the second. -/
theorem failure_aborts_run_witness :
    runPipeline ⟨(""), true, false, (""), ("")⟩ (fun _ => false) (fun _ => true)
        (fun _ => ChatOutcome.readErr) [(("a.jpg"), (".")), (("b.jpg"), ("."))]
      = runPipeline ⟨(""), true, false, (""), ("")⟩ (fun _ => false) (fun _ => true)
        (fun _ => ChatOutcome.readErr) [(("a.jpg"), ("."))]
    ∧ (processOne ⟨(""), true, false, (""), ("")⟩ (fun _ => false) (fun _ => true)
        ((fun _ => ChatOutcome.readErr) ("a.jpg")) ("a.jpg") (".")).fatal = true
    ∧ (processOne ⟨(""), true, false, (""), ("")⟩ (fun _ => false) (fun _ => true)
        ((fun _ => ChatOutcome.transportErr) ("a.jpg")) ("a.jpg") (".")).fatal = true
    ∧ (processOne ⟨(""), true, false, (""), ("")⟩ (fun _ => false) (fun _ => false)
        ((fun _ => ChatOutcome.ok ("hi")) ("a.jpg")) ("a.jpg") (".")).fatal = true := by
  refine ⟨?_, ?_, ?_, ?_⟩
  · exact (failure_aborts_run ⟨(""), true, false, (""), ("")⟩ (fun _ => false) (fun _ => true)
      (fun _ => ChatOutcome.readErr) ("a.jpg") (".") [(("b.jpg"), ("."))]).1 (by decide)
  · exact (failure_aborts_run ⟨(""), true, false, (""), ("")⟩ (fun _ => false) (fun _ => true)
      (fun _ => ChatOutcome.readErr) ("a.jpg") (".") []).2.1 (by rfl) (by rfl)
  · exact (failure_aborts_run ⟨(""), true, false, (""), ("")⟩ (fun _ => false) (fun _ => true)
      (fun _ => ChatOutcome.transportErr) ("a.jpg") (".") []).2.2.1 (by rfl) (by rfl)
  · exact (failure_aborts_run ⟨(""), true, false, (""), ("")⟩ (fun _ => false) (fun _ => false)
      (fun _ => ChatOutcome.ok ("hi")) ("a.jpg") (".") []).2.2.2 ("hi") (by rfl) (by rfl)
      (by rfl) (by rfl)

/-- Under dry-run the pipeline body never writes. -/
theorem processOne_dryRun_wrote (cfg : Config) (fe wok : String → Bool) (o : ChatOutcome)
    (p r : String) (hdry : cfg.dryRun = true) :
    (processOne cfg fe wok o p r).wrote = none := by
  rw [processOne]
  split
  · rfl
  · split
    · rfl
    · rfl
    · simp [hdry]

/-- C5: with dry-run set, a run writes no caption file at all, and a
non-skipped successful image still gets its caption line printed. -/
theorem dry_run_no_writes (cfg : Config) (fe wok : String → Bool)
    (oracle : String → ChatOutcome) (imgs : List (String × String)) (raw p r : String)
    (hdry : cfg.dryRun = true) :
    (runPipeline cfg fe wok oracle imgs).writes = []
    ∧ ((!cfg.force && fe (captionFileOf p)) = false →
        (processOne cfg fe wok (ChatOutcome.ok raw) p r).printedLine
          = some (trimPrefixStr p r ++ (": ") ++ finalCaption cfg raw)) := by
  constructor
  · induction imgs with
    | nil => rfl
    | cons pr rest ih =>
      obtain ⟨p0, r0⟩ := pr
      rw [runPipeline]
      by_cases hf : (processOne cfg fe wok (oracle p0) p0 r0).fatal = true
      · simp only [hf, if_true]
        rw [processOne_dryRun_wrote cfg fe wok (oracle p0) p0 r0 hdry]
        rfl
      · rw [Bool.not_eq_true] at hf
        simp only [hf, Bool.false_eq_true, if_false]
        rw [processOne_dryRun_wrote cfg fe wok (oracle p0) p0 r0 hdry]
        simpa using ih
  · intro hskip
    rw [processOne, hskip]
    by_cases hu : useOpenAI cfg = true
    · simp [hu, ChatWithImageOpenAI, hdry, finalCaption]
    · rw [Bool.not_eq_true] at hu
      simp [hu, ChatWithImage, hdry, finalCaption]

/-- C5 witness: a concrete dry run prints the caption line and leaves
the caption files untouched. -/
theorem dry_run_no_writes_witness :
    (runPipeline ⟨(""), true, true, ("s"), ("e")⟩ (fun _ => false) (fun _ => true)
        (fun _ => ChatOutcome.ok ("A dog.")) [(("d/i.jpg"), ("d"))]).writes = []
    ∧ (processOne ⟨(""), true, true, ("s"), ("e")⟩ (fun _ => false) (fun _ => true)
          (ChatOutcome.ok ("A dog.")) ("d/i.jpg") ("d")).printedLine
        = some (trimPrefixStr ("d/i.jpg") ("d") ++ (": ")
            ++ finalCaption ⟨(""), true, true, ("s"), ("e")⟩ ("A dog.")) :=
  ⟨(dry_run_no_writes ⟨(""), true, true, ("s"), ("e")⟩ (fun _ => false) (fun _ => true)
      (fun _ => ChatOutcome.ok ("A dog.")) [(("d/i.jpg"), ("d"))] ("A dog.") ("d/i.jpg") ("d")
      (by rfl)).1,
    (dry_run_no_writes ⟨(""), true, true, ("s"), ("e")⟩ (fun _ => false) (fun _ => true)
      (fun _ => ChatOutcome.ok ("A dog.")) [(("d/i.jpg"), ("d"))] ("A dog.") ("d/i.jpg") ("d")
      (by rfl)).2 (by rfl)⟩

/-- C1 counterexample: over the default Ollama transport, a model output
with edge whitespace refutes the claimed formula.  With start a, end b
and model output consisting of x surrounded by single spaces, the
pipeline writes the caption with the inner spaces kept (a, two spaces,
x, two spaces, b), which differs from trimming the model output before
concatenation (a space x space b). -/
theorem caption_formula_cex :
    (processOne ⟨(""), true, false, ("a"), ("b")⟩ (fun _ => false) (fun _ => true)
        (ChatOutcome.ok (" x ")) ("i.jpg") (".")).wrote
      = some ((("i.txt")), ("a  x  b"))
    ∧ ("a  x  b") ≠ trimSpace (("a") ++ (" ") ++ trimSpace ((" x ")) ++ (" ") ++ ("b")) := by
  constructor
  · decide
  · decide

/-- C1 (amended): the final caption always equals
trim(start + space + text + space + end) where text is what the selected
transport helper returned: for the OpenAI-compatible transport that
helper returns the model output trimmed, so the claimed formula holds
there; for the Ollama transport the helper returns the model output
untrimmed, and the claimed formula holds exactly in the cases where the
model output carries no leading or trailing whitespace. -/
theorem caption_formula_amended (cfg : Config) (fe wok : String → Bool) (raw p r : String)
    (hskip : (!cfg.force && fe (captionFileOf p)) = false) :
    (processOne cfg fe wok (ChatOutcome.ok raw) p r).printedLine
      = some (trimPrefixStr p r ++ (": ") ++ finalCaption cfg raw)
    ∧ (useOpenAI cfg = true →
        finalCaption cfg raw
          = trimSpace (cfg.startCaption ++ (" ") ++ trimSpace raw ++ (" ") ++ cfg.endCaption))
    ∧ (useOpenAI cfg = false →
        finalCaption cfg raw
          = trimSpace (cfg.startCaption ++ (" ") ++ raw ++ (" ") ++ cfg.endCaption))
    ∧ (trimSpace raw = raw →
        finalCaption cfg raw
          = trimSpace (cfg.startCaption ++ (" ") ++ trimSpace raw ++ (" ") ++ cfg.endCaption)) := by
  refine ⟨?_, ?_, ?_, ?_⟩
  · rw [processOne, hskip]
    simp only [Bool.false_eq_true, if_false]
    by_cases hu : useOpenAI cfg = true
    · simp only [hu, if_true, ChatWithImageOpenAI, finalCaption]
      split
      · split
        · rfl
        · rfl
      · rfl
    · rw [Bool.not_eq_true] at hu
      simp only [hu, Bool.false_eq_true, if_false, ChatWithImage, finalCaption]
      split
      · split
        · rfl
        · rfl
      · rfl
  · intro hu
    simp [finalCaption, hu]
  · intro hu
    simp [finalCaption, hu]
  · intro htrim
    by_cases hu : useOpenAI cfg = true
    · simp [finalCaption, hu]
    · rw [Bool.not_eq_true] at hu
      simp [finalCaption, hu, htrim]

/-- C1 witness: the amended statement at a concrete Ollama-transport
configuration and image. -/
theorem caption_formula_amended_witness :
    (processOne ⟨(""), true, false, ("a"), ("b")⟩ (fun _ => false) (fun _ => true)
        (ChatOutcome.ok ("A cat.")) ("d/i.jpg") ("d")).printedLine
      = some (trimPrefixStr ("d/i.jpg") ("d") ++ (": ")
          ++ finalCaption ⟨(""), true, false, ("a"), ("b")⟩ ("A cat."))
    ∧ finalCaption ⟨(""), true, false, ("a"), ("b")⟩ ("A cat.")
        = trimSpace (("a") ++ (" ") ++ ("A cat.") ++ (" ") ++ ("b"))
    ∧ finalCaption ⟨(""), true, false, ("a"), ("b")⟩ ("A cat.")
        = trimSpace (("a") ++ (" ") ++ trimSpace (("A cat.")) ++ (" ") ++ ("b")) :=
  ⟨(caption_formula_amended ⟨(""), true, false, ("a"), ("b")⟩ (fun _ => false) (fun _ => true)
      ("A cat.") ("d/i.jpg") ("d") (by rfl)).1,
    (caption_formula_amended ⟨(""), true, false, ("a"), ("b")⟩ (fun _ => false) (fun _ => true)
      ("A cat.") ("d/i.jpg") ("d") (by rfl)).2.2.1 (by rfl),
    (caption_formula_amended ⟨(""), true, false, ("a"), ("b")⟩ (fun _ => false) (fun _ => true)
      ("A cat.") ("d/i.jpg") ("d") (by rfl)).2.2.2 (by decide)⟩

end Capollama
